import Mathlib

/-!
# Verification of the seven-families game core

Shallow embedding of the session state machine, item pool and resumable
timer of the seven-families audio flashcard game (`src/game.rs`,
`src/sentences.rs`, `src/family.rs`, `src/timer.rs`).

Modelling choices:
* `std::time::Duration` and `instant::Instant` are modelled as `Nat`
  millisecond counts; `Duration` arithmetic (`saturating_sub`, truncated
  subtraction of instants) maps to `Nat` subtraction, which saturates.
* The `gloo_timers` `Timeout` handle inside `Timer` is modelled as
  `Option Nat` holding the scheduled delay in milliseconds: `some` means a
  callback is pending, `none` means none is pending (cancelled or absent).
* The `Interval` handle stored in `State::Waiting` only schedules the
  one-per-second `UpdateTime` message and carries no data, so it is not a
  field of the embedded state.
* `HashSet<Family>` is modelled as a `List Family`; the list order stands
  for the (unspecified) iteration order of the hash set.
* The shuffle performed by `Sentences::new` uses `OsRng` and is
  nondeterministic; the embedding keeps the unshuffled concatenation and
  theorems quantify over an arbitrary `shuffle` function / an arbitrary
  permutation of the pool where it matters.
-/

namespace SevenFamilies

/-! ## Families and sentences (`src/family.rs`, `src/sentences.rs`) -/

/-- Families without the sentences in them (`Family` in `src/family.rs`). -/
inductive Family where
  | ChiefKit
  | Fruits
  | Hygiene
  | ProfessionalGestures
  | RedFruits
  | SmallUstensils
  | Trimmings
deriving Repr, DecidableEq

/-- `enum_iterator::IntoEnumIterator` for `Family`: all variants in
declaration order. -/
def Family.into_enum_iter : List Family :=
  [.ChiefKit, .Fruits, .Hygiene, .ProfessionalGestures, .RedFruits,
   .SmallUstensils, .Trimmings]

/-- Elements of the `ChiefKit` family (`assets!` invocation in
`src/sentences.rs`). -/
inductive ChiefKit where
  | Coring
  | FilletKnife
  | ParingKnife
  | Peeler
  | Slicer
  | Zester
deriving Repr, DecidableEq

def ChiefKit.into_enum_iter : List ChiefKit :=
  [.Coring, .FilletKnife, .ParingKnife, .Peeler, .Slicer, .Zester]

/-- Elements of the `Fruits` family. -/
inductive Fruits where
  | Apple
  | Apricot
  | Grapes
  | Orange
  | Peach
  | Plum
deriving Repr, DecidableEq

def Fruits.into_enum_iter : List Fruits :=
  [.Apple, .Apricot, .Grapes, .Orange, .Peach, .Plum]

/-- Elements of the `Hygiene` family. -/
inductive Hygiene where
  | Bacterium
  | Cleaning
  | Disinfectant
  | Epi
  | Microbe
  | Mould
deriving Repr, DecidableEq

def Hygiene.into_enum_iter : List Hygiene :=
  [.Bacterium, .Cleaning, .Disinfectant, .Epi, .Microbe, .Mould]

/-- Elements of the `ProfessionalGestures` family. -/
inductive ProfessionalGestures where
  | Cutletting
  | Lower
  | Slice
  | Sweat
  | Turn
  | Winnow
deriving Repr, DecidableEq

def ProfessionalGestures.into_enum_iter : List ProfessionalGestures :=
  [.Cutletting, .Lower, .Slice, .Sweat, .Turn, .Winnow]

/-- Elements of the `RedFruits` family. -/
inductive RedFruits where
  | Blackberry
  | Blackcurrant
  | Cherry
  | Raspberry
  | Redcurrant
  | Strawberry
deriving Repr, DecidableEq

def RedFruits.into_enum_iter : List RedFruits :=
  [.Blackberry, .Blackcurrant, .Cherry, .Raspberry, .Redcurrant, .Strawberry]

/-- Elements of the `SmallUstensils` family. -/
inductive SmallUstensils where
  | Chests
  | ChickenButt
  | ChineseCheesecloth
  | CleaningPlate
  | Roundel
  | Skimmer
deriving Repr, DecidableEq

def SmallUstensils.into_enum_iter : List SmallUstensils :=
  [.Chests, .ChickenButt, .ChineseCheesecloth, .CleaningPlate, .Roundel,
   .Skimmer]

/-- Elements of the `Trimmings` family. -/
inductive Trimmings where
  | Brunoise
  | Jardiniere
  | JulienneStrip
  | Macedonia
  | Mirepoix
  | PaysanneCut
deriving Repr, DecidableEq

def Trimmings.into_enum_iter : List Trimmings :=
  [.Brunoise, .Jardiniere, .JulienneStrip, .Macedonia, .Mirepoix,
   .PaysanneCut]

/-- All the possible sentences (`Sentence` in `src/sentences.rs`). -/
inductive Sentence where
  | ChiefKit (st : ChiefKit)
  | Fruits (st : Fruits)
  | Hygiene (st : Hygiene)
  | ProfessionalGestures (st : ProfessionalGestures)
  | RedFruits (st : RedFruits)
  | SmallUstensils (st : SmallUstensils)
  | Trimmings (st : Trimmings)
deriving Repr, DecidableEq

/-- The sentences contributed by one family, in the order of the matching
arm of `Sentences::new` (`src/sentences.rs`). -/
def Family.elements : Family → List Sentence
  | .ChiefKit => ChiefKit.into_enum_iter.map Sentence.ChiefKit
  | .Fruits => Fruits.into_enum_iter.map Sentence.Fruits
  | .Hygiene => Hygiene.into_enum_iter.map Sentence.Hygiene
  | .ProfessionalGestures =>
      ProfessionalGestures.into_enum_iter.map Sentence.ProfessionalGestures
  | .RedFruits => RedFruits.into_enum_iter.map Sentence.RedFruits
  | .SmallUstensils => SmallUstensils.into_enum_iter.map Sentence.SmallUstensils
  | .Trimmings => Trimmings.into_enum_iter.map Sentence.Trimmings

/-- `Sentences::new` (`src/sentences.rs`): the vector of sentences of the
selected families, before the final `shuffle(&mut OsRng)`.  The shuffle is
nondeterministic, so theorems about pools quantify over an arbitrary
permutation of this list (an explicit `shuffle` parameter at call sites). -/
def Sentences.new (families : List Family) : List Sentence :=
  families.flatMap Family.elements

/-- `Sentences::draw_one` (`src/sentences.rs`): `Vec::pop`, removing and
returning the last element of the draw sequence. -/
def Sentences.draw_one (pool : List Sentence) : Option (Sentence × List Sentence) :=
  match pool.getLast? with
  | none => none
  | some s => some (s, pool.dropLast)

/-- `Sentences::is_empty` (`src/sentences.rs`). -/
def Sentences.is_empty (pool : List Sentence) : Bool :=
  pool.isEmpty

/-- Repeatedly call `Sentences.draw_one` until it returns `none`, collecting
the drawn sentences in draw order.  The fuel argument bounds the recursion;
`pool.length` is always enough fuel. -/
def Sentences.drawAllAux : Nat → List Sentence → List Sentence
  | 0, _ => []
  | fuel + 1, pool =>
      match Sentences.draw_one pool with
      | none => []
      | some (s, rest) => s :: Sentences.drawAllAux fuel rest

/-- The complete draw sequence of a pool: every sentence `draw_one` yields
before it starts returning `none`. -/
def Sentences.drawAll (pool : List Sentence) : List Sentence :=
  Sentences.drawAllAux pool.length pool

/-! ## The resumable timer (`src/timer.rs`) -/

/-- `Timer` (`src/timer.rs`).  `timeout` is the pending scheduled callback:
`some delay` when one is scheduled (with its clamped delay in ms), `none`
when cancelled/absent.  `start` is the ms timestamp of the recorded start
instant; `duration_left` the stored `Duration` in ms. -/
structure Timer where
  timeout : Option Nat
  start : Nat
  duration_left : Nat
deriving Repr, DecidableEq

/-- `Duration::from_secs`, in milliseconds. -/
def Duration.from_secs (s : Nat) : Nat := s * 1000

/-- `Duration::clamp(lo, hi)` (for `lo ≤ hi`). -/
def Duration.clamp (d lo hi : Nat) : Nat := min (max d lo) hi

/-- `clamp_duration` (`src/timer.rs`): `duration.as_millis().clamp(0, u32::MAX) as u32`. -/
def clamp_duration (duration : Nat) : Nat := min duration 4294967295

/-- `Timer::MAX` (`src/timer.rs`): 10 seconds, used by `extend`. -/
def Timer.MAX : Nat := Duration.from_secs 10

/-- `Timer::new` (`src/timer.rs`): create and immediately launch a timer at
instant `now`. -/
def Timer.new (duration now : Nat) : Timer :=
  { timeout := some (clamp_duration duration)
    start := now
    duration_left := duration }

/-- `Timer::pause` (`src/timer.rs`), called at instant `now`: cancels the
pending timeout and stores `Instant::now().duration_since(self.start)` —
the elapsed time — into `duration_left`. -/
def Timer.pause (t : Timer) (now : Nat) : Timer :=
  { timeout := none
    start := t.start
    duration_left := now - t.start }

/-- `Timer::extend` (`src/timer.rs`). -/
def Timer.extend (t : Timer) (duration : Nat) : Timer :=
  { t with duration_left := Duration.clamp (t.duration_left + duration) 0 Timer.MAX }

/-- `Timer::resume` (`src/timer.rs`), called at instant `now`: reschedules a
timeout for `duration_left` and records a fresh start instant. -/
def Timer.resume (t : Timer) (now : Nat) : Timer :=
  { timeout := some (clamp_duration t.duration_left)
    start := now
    duration_left := t.duration_left }

/-- Modelled from the spec: `Timer::stop` is called by `Game::update_in_game`
(`src/game.rs`, `timer.stop()` in the `Waiting`/`Pause` arm) but no `stop`
method is present in `src/timer.rs`.  Per the spec, `stop() -> remaining` is
like `pause` but terminal: it cancels the pending scheduled callback and
computes remaining = duration − elapsed-since-start, saturating at zero,
which it returns and stores. -/
def Timer.stop (t : Timer) (now : Nat) : Nat × Timer :=
  let remaining := t.duration_left - (now - t.start)
  (remaining, { timeout := none, start := t.start, duration_left := remaining })

/-! ## The game state machine (`src/game.rs`) -/

/-- `MIN_TIMER_DURATION` (`src/game.rs`): minimum time between two
sentences. -/
def MIN_TIMER_DURATION : Nat := Duration.from_secs 3

/-- `MAX_TIMER_DURATION` (`src/game.rs`): maximum time between two
sentences. -/
def MAX_TIMER_DURATION : Nat := Duration.from_secs 60

/-- `SentenceState` (`src/game.rs`): which part of a sentence's sound is
playing. `Family` is the first (category) part, `Element` the second. -/
inductive SentenceState where
  | Element
  | Family
deriving Repr, DecidableEq

/-- `State` (`src/game.rs`): the states of the game. -/
inductive State where
  | SelectingFamilies (families : List Family)
  | GettingSoundPermission
  | Playing (current : Sentence × SentenceState)
  | PlayingPaused (current : Sentence × SentenceState)
  | Waiting (time_left : Nat) (timer : Timer)
  | WaitingPaused (time_left : Nat)
  | Finished
deriving Repr, DecidableEq

/-- `InGameMsg` (`src/game.rs`). -/
inductive InGameMsg where
  | ChangeTimer (seconds : Nat)
  | GoHome
  | NextSentence
  | Pause
  | Resume
  | SentenceState
  | SoundPermission
  | UpdateTime
deriving Repr, DecidableEq

/-- `BeforeGameMsg` (`src/game.rs`). -/
inductive BeforeGameMsg where
  | Toggle (f : Family)
  | SelectAllFamilies
  | ClearAllFamilies
  | LaunchGame
deriving Repr, DecidableEq

/-- `Msg` (`src/game.rs`). -/
inductive Msg where
  | Before (m : BeforeGameMsg)
  | InGame (m : InGameMsg)
deriving Repr, DecidableEq

/-- `Game` (`src/game.rs`): the component state.  The `audio` field is an
external capability (an `HtmlAudioElement` wrapper) holding no game data and
is not part of the embedded state. -/
structure Game where
  duration : Nat
  sentences : List Sentence
  state : State
deriving Repr, DecidableEq

/-- `waiting_state` (`src/game.rs`): a `State::Waiting` with the display
countdown and a freshly launched `Timer` for `time_left`, started at `now`.
(The `Interval` it also creates carries no data and is omitted.) -/
def waiting_state (time_left now : Nat) : State :=
  State.Waiting time_left (Timer.new time_left now)

/-- `Game::update_in_game` (`src/game.rs`), with the current instant `now`
passed explicitly (used by `Timer::new` and `Timer::stop`).  The match arms
are in source order; the final arm is the catch-all no-op. -/
def update_in_game (g : Game) (msg : InGameMsg) (now : Nat) : Game :=
  match g.state, msg with
  | State.GettingSoundPermission, InGameMsg.ChangeTimer seconds
  | State.WaitingPaused _, InGameMsg.ChangeTimer seconds
  | State.PlayingPaused _, InGameMsg.ChangeTimer seconds =>
      { g with duration :=
          Duration.clamp (Duration.from_secs seconds) MIN_TIMER_DURATION MAX_TIMER_DURATION }
  | State.GettingSoundPermission, InGameMsg.SoundPermission
  | State.Waiting _ _, InGameMsg.NextSentence
  | State.WaitingPaused _, InGameMsg.NextSentence
  | State.Playing _, InGameMsg.NextSentence =>
      match Sentences.draw_one g.sentences with
      | none => { g with state := State.Finished }
      | some (st, rest) =>
          { g with sentences := rest
                   state := State.Playing (st, SentenceState.Family) }
  | State.Playing (st, SentenceState.Family), InGameMsg.SentenceState =>
      { g with state := State.Playing (st, SentenceState.Element) }
  | State.Playing (_, SentenceState.Element), InGameMsg.SentenceState =>
      if Sentences.is_empty g.sentences then
        { g with state := State.Finished }
      else
        { g with state := waiting_state g.duration now }
  | State.Playing current, InGameMsg.Pause =>
      { g with state := State.PlayingPaused current }
  | State.Waiting time_left timer, InGameMsg.UpdateTime =>
      { g with state := State.Waiting (time_left - Duration.from_secs 1) timer }
  | State.Waiting _ timer, InGameMsg.Pause =>
      { g with state := State.WaitingPaused (Timer.stop timer now).fst }
  | State.PlayingPaused current, InGameMsg.Resume =>
      { g with state := State.Playing current }
  | State.WaitingPaused time_left, InGameMsg.Resume =>
      { g with state := waiting_state time_left now }
  | State.PlayingPaused _, InGameMsg.GoHome
  | State.WaitingPaused _, InGameMsg.GoHome
  | State.Finished, InGameMsg.GoHome =>
      { g with state := State.SelectingFamilies []
               sentences := Sentences.new [] }
  | _, _ => g

/-- The (state, message) pairs for which `Game::update_in_game`
(`src/game.rs`) has a dedicated match arm; every other pair falls into the
final `_ => ()` catch-all and is a no-op. -/
def handled_in_game : State → InGameMsg → Bool
  | State.GettingSoundPermission, InGameMsg.ChangeTimer _ => true
  | State.WaitingPaused _, InGameMsg.ChangeTimer _ => true
  | State.PlayingPaused _, InGameMsg.ChangeTimer _ => true
  | State.GettingSoundPermission, InGameMsg.SoundPermission => true
  | State.Waiting _ _, InGameMsg.NextSentence => true
  | State.WaitingPaused _, InGameMsg.NextSentence => true
  | State.Playing _, InGameMsg.NextSentence => true
  | State.Playing _, InGameMsg.SentenceState => true
  | State.Playing _, InGameMsg.Pause => true
  | State.Waiting _ _, InGameMsg.UpdateTime => true
  | State.Waiting _ _, InGameMsg.Pause => true
  | State.PlayingPaused _, InGameMsg.Resume => true
  | State.WaitingPaused _, InGameMsg.Resume => true
  | State.PlayingPaused _, InGameMsg.GoHome => true
  | State.WaitingPaused _, InGameMsg.GoHome => true
  | State.Finished, InGameMsg.GoHome => true
  | _, _ => false

/-- `Game::update_before_game` (`src/game.rs`).  `shuffle` stands for the
nondeterministic `sentences.shuffle(&mut OsRng)` applied inside
`Sentences::new`; any list permutation may be passed. -/
def update_before_game (g : Game) (msg : BeforeGameMsg)
    (shuffle : List Sentence → List Sentence) : Game :=
  match g.state with
  | State.SelectingFamilies families =>
      match msg with
      | BeforeGameMsg.Toggle f =>
          if f ∈ families then
            { g with state := State.SelectingFamilies (families.erase f) }
          else
            { g with state := State.SelectingFamilies (families ++ [f]) }
      | BeforeGameMsg.SelectAllFamilies =>
          let extended := families ++ Family.into_enum_iter.filter (fun f => !decide (f ∈ families))
          { g with state := State.SelectingFamilies extended }
      | BeforeGameMsg.ClearAllFamilies =>
          { g with state := State.SelectingFamilies [] }
      | BeforeGameMsg.LaunchGame =>
          { g with sentences := shuffle (Sentences.new families)
                   state := State.GettingSoundPermission }
  | _ => g

/-- `Game::update` (`src/game.rs`): dispatch on the message kind. -/
def Game.update (g : Game) (msg : Msg) (now : Nat)
    (shuffle : List Sentence → List Sentence) : Game :=
  match msg with
  | Msg.Before m => update_before_game g m shuffle
  | Msg.InGame m => update_in_game g m now

/-- `<Game as Component>::create` (`src/game.rs`): duration 20 s, empty
sentences, selecting families with an empty selection. -/
def Game.create : Game :=
  { duration := Duration.from_secs 20
    sentences := Sentences.new []
    state := State.SelectingFamilies [] }

/-! ## Helper lemmas -/

theorem draw_one_nil : Sentences.draw_one [] = none := rfl

theorem draw_one_concat (l : List Sentence) (s : Sentence) :
    Sentences.draw_one (l ++ [s]) = some (s, l) := by
  simp [Sentences.draw_one]

theorem draw_one_length {pool rest : List Sentence} {s : Sentence}
    (h : Sentences.draw_one pool = some (s, rest)) :
    rest.length + 1 = pool.length := by
  rcases List.eq_nil_or_concat pool with rfl | ⟨l, a, rfl⟩
  · simp [Sentences.draw_one] at h
  · rw [List.concat_eq_append, draw_one_concat] at h
    obtain ⟨rfl, rfl⟩ : s = a ∧ rest = l := by
      constructor <;> injection h with h1 <;> injection h1 <;> simp_all
    simp

theorem drawAllAux_eq_reverse :
    ∀ (fuel : Nat) (pool : List Sentence), pool.length ≤ fuel →
      Sentences.drawAllAux fuel pool = pool.reverse := by
  intro fuel
  induction fuel with
  | zero =>
      intro pool hlen
      rw [Nat.le_zero, List.length_eq_zero] at hlen
      subst hlen
      rfl
  | succ n ih =>
      intro pool hlen
      rcases List.eq_nil_or_concat pool with rfl | ⟨l, a, rfl⟩
      · rfl
      · rw [List.concat_eq_append] at hlen ⊢
        simp only [Sentences.drawAllAux, draw_one_concat]
        rw [ih l (by simpa using Nat.le_of_succ_le_succ (by simpa using hlen))]
        simp

theorem drawAll_eq_reverse (pool : List Sentence) :
    Sentences.drawAll pool = pool.reverse :=
  drawAllAux_eq_reverse pool.length pool le_rfl

theorem elements_length (f : Family) : (Family.elements f).length = 6 := by
  cases f <;> rfl

theorem elements_nodup (f : Family) : (Family.elements f).Nodup := by
  cases f <;> decide

theorem elements_disjoint {f g : Family} (h : f ≠ g) :
    (Family.elements f).Disjoint (Family.elements g) := by
  rw [List.disjoint_left]
  revert h
  cases f <;> cases g <;> decide

theorem new_length (families : List Family) :
    (Sentences.new families).length = 6 * families.length := by
  induction families with
  | nil => rfl
  | cons f fs ih =>
      simp only [Sentences.new, List.flatMap_cons, List.length_append,
        elements_length] at *
      rw [ih]
      simp [List.length_cons]
      ring

theorem new_nodup {families : List Family} (h : families.Nodup) :
    (Sentences.new families).Nodup := by
  rw [Sentences.new, List.nodup_flatMap]
  refine ⟨fun f _ => elements_nodup f, ?_⟩
  exact h.imp fun hne => elements_disjoint hne

theorem clamp_mem_range (s : Nat) :
    MIN_TIMER_DURATION
        ≤ Duration.clamp (Duration.from_secs s) MIN_TIMER_DURATION MAX_TIMER_DURATION
    ∧ Duration.clamp (Duration.from_secs s) MIN_TIMER_DURATION MAX_TIMER_DURATION
        ≤ MAX_TIMER_DURATION := by
  unfold Duration.clamp MIN_TIMER_DURATION MAX_TIMER_DURATION Duration.from_secs
  omega

theorem update_before_game_duration (g : Game) (msg : BeforeGameMsg)
    (shuffle : List Sentence → List Sentence) :
    (update_before_game g msg shuffle).duration = g.duration := by
  rcases g with ⟨d, pool, st⟩
  cases st <;> cases msg <;>
    first
      | rfl
      | (simp only [update_before_game]; split <;> rfl)

theorem update_in_game_duration (g : Game) (msg : InGameMsg) (now : Nat) :
    (update_in_game g msg now).duration = g.duration
    ∨ ∃ s, (update_in_game g msg now).duration
        = Duration.clamp (Duration.from_secs s) MIN_TIMER_DURATION MAX_TIMER_DURATION := by
  rcases g with ⟨d, pool, st⟩
  cases st <;> cases msg <;>
    first
      | (left; rfl)
      | (right; exact ⟨_, rfl⟩)
      | (left
         rename_i c
         obtain ⟨s, ss⟩ := c
         cases ss <;> simp only [update_in_game] <;>
           all_goals first | rfl | (split <;> rfl))
      | (left
         simp only [update_in_game]
         all_goals first | rfl | (split <;> rfl))

/-! ## Claims -/

/-- C1: the claim (and the spec) say `Timer::pause` captures a remaining
value equal to duration − elapsed, saturating at zero.  The code
(`src/timer.rs`) instead stores the *elapsed* time itself into
`duration_left`: a timer started at instant 0 with duration 20 s and paused
at instant 13 s (7 s remaining) cancels the pending callback but stores
13 s, not 7 s, so a subsequent `resume` schedules 13 s — contradicting the
field's name `duration_left` and `resume`'s own doc comment. -/
theorem timer_pause_stores_elapsed_not_remaining :
    ((Timer.new (Duration.from_secs 20) 0).pause (Duration.from_secs 13)).duration_left
        = Duration.from_secs 13
    ∧ ((Timer.new (Duration.from_secs 20) 0).pause (Duration.from_secs 13)).timeout = none
    ∧ Duration.from_secs 20 - Duration.from_secs 13 = Duration.from_secs 7
    ∧ Duration.from_secs 13 ≠ Duration.from_secs 7 :=
  ⟨rfl, rfl, rfl, by decide⟩

/-- C2 counterexample: in `GettingSoundPermission` (the spec's
`AwaitingAudioPermission`, a non-terminal state) the `GoHome` event is a
no-op: the state and the non-empty pool are kept, the session is not
discarded. -/
theorem goHome_is_noop_in_awaiting_permission :
    update_in_game
        ⟨Duration.from_secs 20, Sentences.new [Family.Fruits],
          State.GettingSoundPermission⟩
        InGameMsg.GoHome 0
      = ⟨Duration.from_secs 20, Sentences.new [Family.Fruits],
          State.GettingSoundPermission⟩
    ∧ Sentences.new [Family.Fruits] ≠ [] :=
  ⟨rfl, by decide⟩

/-- C2 (amended): `GoHome` discards the session — state back to
`SelectingFamilies` with an empty selection and an emptied pool — exactly
from `PlayingPaused`, `WaitingPaused` and the terminal `Finished`; from
`GettingSoundPermission`, `Playing` and `Waiting` it is a no-op. -/
theorem goHome_discards_only_from_paused_or_finished
    (d now tl : Nat) (pool : List Sentence) (c : Sentence × SentenceState) (t : Timer) :
    update_in_game ⟨d, pool, State.PlayingPaused c⟩ InGameMsg.GoHome now
        = ⟨d, [], State.SelectingFamilies []⟩
    ∧ update_in_game ⟨d, pool, State.WaitingPaused tl⟩ InGameMsg.GoHome now
        = ⟨d, [], State.SelectingFamilies []⟩
    ∧ update_in_game ⟨d, pool, State.Finished⟩ InGameMsg.GoHome now
        = ⟨d, [], State.SelectingFamilies []⟩
    ∧ update_in_game ⟨d, pool, State.GettingSoundPermission⟩ InGameMsg.GoHome now
        = ⟨d, pool, State.GettingSoundPermission⟩
    ∧ update_in_game ⟨d, pool, State.Playing c⟩ InGameMsg.GoHome now
        = ⟨d, pool, State.Playing c⟩
    ∧ update_in_game ⟨d, pool, State.Waiting tl t⟩ InGameMsg.GoHome now
        = ⟨d, pool, State.Waiting tl t⟩ := by
  obtain ⟨s, ss⟩ := c
  cases ss <;> exact ⟨rfl, rfl, rfl, rfl, rfl, rfl⟩

/-- C3 counterexample: `NextSentence` in `Playing` is one of the claim's own
examples of a pair absent from the spec's transition table, yet the code
does *not* leave the session unchanged there: it draws from the pool (size
6 → 5) and replaces the current sentence. -/
theorem nextSentence_in_playing_is_not_noop :
    (update_in_game
        ⟨Duration.from_secs 20, Sentences.new [Family.Fruits],
          State.Playing (Sentence.Fruits Fruits.Apple, SentenceState.Element)⟩
        InGameMsg.NextSentence 0).sentences.length = 5
    ∧ (Sentences.new [Family.Fruits]).length = 6
    ∧ (update_in_game
        ⟨Duration.from_secs 20, Sentences.new [Family.Fruits],
          State.Playing (Sentence.Fruits Fruits.Apple, SentenceState.Element)⟩
        InGameMsg.NextSentence 0).state
      = State.Playing (Sentence.Fruits Fruits.Plum, SentenceState.Family) :=
  ⟨rfl, rfl, rfl⟩

/-- C3 (amended): any (state, event) pair without a dedicated arm in
`Game::update_in_game`'s match — the predicate `handled_in_game` — is a
no-op leaving the whole component (state, configured duration and pool)
unchanged, without panicking.  The code's arm set differs from the spec's
table: `NextSentence` is additionally handled in `Playing` and
`WaitingPaused`, `GoHome` is handled only in `PlayingPaused`,
`WaitingPaused` and `Finished`, and the one-second tick (`UpdateTime`) is
handled in `Waiting`. -/
theorem unhandled_event_is_noop (g : Game) (msg : InGameMsg) (now : Nat)
    (h : handled_in_game g.state msg = false) :
    update_in_game g msg now = g := by
  rcases g with ⟨d, pool, st⟩
  cases st <;>
    (try (rename_i c; obtain ⟨s, ss⟩ := c; cases ss)) <;>
    cases msg <;> simp_all [handled_in_game] <;> rfl

theorem unhandled_event_is_noop_witness :
    handled_in_game State.Finished InGameMsg.Pause = false
    ∧ update_in_game ⟨Duration.from_secs 20, [], State.Finished⟩ InGameMsg.Pause 0
        = ⟨Duration.from_secs 20, [], State.Finished⟩ :=
  ⟨rfl,
   unhandled_event_is_noop ⟨Duration.from_secs 20, [], State.Finished⟩
     InGameMsg.Pause 0 rfl⟩

/-- C4 counterexample: launching the game with an empty family selection
builds an *empty* pool — there is no fallback to "all categories selected",
which would have produced the 42-sentence pool. -/
theorem launch_with_empty_selection_yields_empty_pool :
    (update_before_game ⟨Duration.from_secs 20, [], State.SelectingFamilies []⟩
        BeforeGameMsg.LaunchGame id).sentences = []
    ∧ (Sentences.new Family.into_enum_iter).length = 42 :=
  ⟨rfl, rfl⟩

/-- C4 (amended): an empty family selection at session start is not
rejected, but it is also not replaced by the full selection: the session
moves to `GettingSoundPermission` with an empty pool (for any
permutation-producing shuffle). -/
theorem launch_with_empty_selection (d : Nat) (pool : List Sentence)
    (shuffle : List Sentence → List Sentence)
    (hsh : ∀ l, (shuffle l).Perm l) :
    update_before_game ⟨d, pool, State.SelectingFamilies []⟩
        BeforeGameMsg.LaunchGame shuffle
      = ⟨d, [], State.GettingSoundPermission⟩ := by
  have h : shuffle (Sentences.new []) = [] := (hsh (Sentences.new [])).eq_nil
  simp [update_before_game, h]

theorem launch_with_empty_selection_witness :
    update_before_game
        ⟨Duration.from_secs 20, [], State.SelectingFamilies []⟩
        BeforeGameMsg.LaunchGame id
      = ⟨Duration.from_secs 20, [], State.GettingSoundPermission⟩ :=
  launch_with_empty_selection (Duration.from_secs 20) [] id
    (fun l => List.Perm.refl l)

/-- C5: for every non-empty, duplicate-free family selection and every pool
obtained by shuffling `Sentences::new`'s draw sequence, the pool has exactly
6 × (number of selected families) sentences; drawing repeatedly until
`draw_one` returns `none` yields a permutation of the pool in which no
sentence appears twice — each pool item is returned exactly once before the
pool reports empty — and every single draw shrinks the pool by exactly
one. -/
theorem pool_size_and_exhaustive_unique_draws
    (families : List Family) (pool : List Sentence)
    (_hne : families ≠ []) (hnd : families.Nodup)
    (hperm : pool.Perm (Sentences.new families)) :
    pool.length = 6 * families.length
    ∧ (Sentences.drawAll pool).Perm pool
    ∧ (Sentences.drawAll pool).Nodup
    ∧ (∀ s ∈ pool, (Sentences.drawAll pool).count s = 1)
    ∧ (∀ s rest, Sentences.draw_one pool = some (s, rest) →
        rest.length + 1 = pool.length) := by
  have hpn : pool.Nodup := hperm.nodup_iff.mpr (new_nodup hnd)
  have hda := drawAll_eq_reverse pool
  have hdn : (Sentences.drawAll pool).Nodup := by
    rw [hda, List.nodup_reverse]; exact hpn
  refine ⟨by rw [hperm.length_eq, new_length], ?_, hdn, ?_, ?_⟩
  · rw [hda]; exact pool.reverse_perm
  · intro s hs
    exact List.count_eq_one_of_mem hdn (by rw [hda]; simpa using hs)
  · intro s rest h
    exact draw_one_length h

theorem pool_size_and_exhaustive_unique_draws_witness :
    (Sentences.new [Family.Fruits]).length = 6 * [Family.Fruits].length
    ∧ (Sentences.drawAll (Sentences.new [Family.Fruits])).Perm
        (Sentences.new [Family.Fruits])
    ∧ (Sentences.drawAll (Sentences.new [Family.Fruits])).Nodup
    ∧ (∀ s ∈ Sentences.new [Family.Fruits],
        (Sentences.drawAll (Sentences.new [Family.Fruits])).count s = 1)
    ∧ (∀ s rest,
        Sentences.draw_one (Sentences.new [Family.Fruits]) = some (s, rest) →
        rest.length + 1 = (Sentences.new [Family.Fruits]).length) :=
  pool_size_and_exhaustive_unique_draws [Family.Fruits]
    (Sentences.new [Family.Fruits]) (by decide) (by decide) (List.Perm.refl _)

/-- C6: from `GettingSoundPermission` (AwaitingAudioPermission), the
`SoundPermission` (PermissionGranted) event with an empty pool always lands
in `Finished`; with a non-empty pool it always lands in `Playing` holding
the drawn sentence in the `Family` (category) phase, the pool losing that
sentence. -/
theorem permission_granted_plays_first_or_finishes
    (d : Nat) (pool : List Sentence) (now : Nat) :
    (pool = [] →
      update_in_game ⟨d, pool, State.GettingSoundPermission⟩
          InGameMsg.SoundPermission now
        = ⟨d, pool, State.Finished⟩)
    ∧ (∀ s rest, Sentences.draw_one pool = some (s, rest) →
      update_in_game ⟨d, pool, State.GettingSoundPermission⟩
          InGameMsg.SoundPermission now
        = ⟨d, rest, State.Playing (s, SentenceState.Family)⟩) := by
  constructor
  · rintro rfl; rfl
  · intro s rest h
    simp [update_in_game, h]

theorem permission_granted_plays_first_or_finishes_witness :
    update_in_game ⟨Duration.from_secs 20, [], State.GettingSoundPermission⟩
        InGameMsg.SoundPermission 0
      = ⟨Duration.from_secs 20, [], State.Finished⟩
    ∧ update_in_game
        ⟨Duration.from_secs 20, Sentences.new [Family.Fruits],
          State.GettingSoundPermission⟩
        InGameMsg.SoundPermission 0
      = ⟨Duration.from_secs 20, (Sentences.new [Family.Fruits]).dropLast,
          State.Playing (Sentence.Fruits Fruits.Plum, SentenceState.Family)⟩ :=
  ⟨(permission_granted_plays_first_or_finishes (Duration.from_secs 20) [] 0).1 rfl,
   (permission_granted_plays_first_or_finishes (Duration.from_secs 20)
      (Sentences.new [Family.Fruits]) 0).2 _ _ rfl⟩

/-- C7: in `Playing`, a finished clip in the `Family` (category) phase moves
to the `Element` (item) phase of the same sentence — the category clip can
never be skipped — and a finished clip in the `Element` phase moves to
`Waiting` for the configured duration (with a fresh timer for that
duration) when the pool is non-empty, else to `Finished`. -/
theorem clip_finished_two_phase
    (d now : Nat) (pool : List Sentence) (st : Sentence) :
    update_in_game ⟨d, pool, State.Playing (st, SentenceState.Family)⟩
        InGameMsg.SentenceState now
      = ⟨d, pool, State.Playing (st, SentenceState.Element)⟩
    ∧ (pool = [] →
        update_in_game ⟨d, pool, State.Playing (st, SentenceState.Element)⟩
            InGameMsg.SentenceState now
          = ⟨d, pool, State.Finished⟩)
    ∧ (pool ≠ [] →
        update_in_game ⟨d, pool, State.Playing (st, SentenceState.Element)⟩
            InGameMsg.SentenceState now
          = ⟨d, pool, State.Waiting d (Timer.new d now)⟩) := by
  refine ⟨rfl, ?_, ?_⟩
  · rintro rfl; rfl
  · intro h
    simp [update_in_game, Sentences.is_empty, waiting_state,
      List.isEmpty_iff, h]

theorem clip_finished_two_phase_witness :
    update_in_game
        ⟨Duration.from_secs 20, [],
          State.Playing (Sentence.Fruits Fruits.Apple, SentenceState.Element)⟩
        InGameMsg.SentenceState 0
      = ⟨Duration.from_secs 20, [], State.Finished⟩
    ∧ update_in_game
        ⟨Duration.from_secs 20, Sentences.new [Family.Fruits],
          State.Playing (Sentence.Fruits Fruits.Apple, SentenceState.Element)⟩
        InGameMsg.SentenceState 0
      = ⟨Duration.from_secs 20, Sentences.new [Family.Fruits],
          State.Waiting (Duration.from_secs 20)
            (Timer.new (Duration.from_secs 20) 0)⟩ :=
  ⟨(clip_finished_two_phase (Duration.from_secs 20) 0 []
      (Sentence.Fruits Fruits.Apple)).2.1 rfl,
   (clip_finished_two_phase (Duration.from_secs 20) 0
      (Sentences.new [Family.Fruits]) (Sentence.Fruits Fruits.Apple)).2.2
     (by decide)⟩

/-- C8: `ChangeTimer seconds` (DurationChanged) in `GettingSoundPermission`,
`WaitingPaused` or `PlayingPaused` leaves the state untouched and stores
`Duration::from_secs(seconds)` clamped into
[`MIN_TIMER_DURATION`, `MAX_TIMER_DURATION`] = [3 s, 60 s]; the stored value
always lies in that range, and `ChangeTimer 200` while awaiting permission
stores 60 s, not 200 s. -/
theorem duration_changed_clamps (seconds d now tl : Nat)
    (pool : List Sentence) (c : Sentence × SentenceState) :
    update_in_game ⟨d, pool, State.GettingSoundPermission⟩
        (InGameMsg.ChangeTimer seconds) now
      = ⟨Duration.clamp (Duration.from_secs seconds) MIN_TIMER_DURATION
            MAX_TIMER_DURATION, pool, State.GettingSoundPermission⟩
    ∧ update_in_game ⟨d, pool, State.WaitingPaused tl⟩
        (InGameMsg.ChangeTimer seconds) now
      = ⟨Duration.clamp (Duration.from_secs seconds) MIN_TIMER_DURATION
            MAX_TIMER_DURATION, pool, State.WaitingPaused tl⟩
    ∧ update_in_game ⟨d, pool, State.PlayingPaused c⟩
        (InGameMsg.ChangeTimer seconds) now
      = ⟨Duration.clamp (Duration.from_secs seconds) MIN_TIMER_DURATION
            MAX_TIMER_DURATION, pool, State.PlayingPaused c⟩
    ∧ MIN_TIMER_DURATION
        ≤ Duration.clamp (Duration.from_secs seconds) MIN_TIMER_DURATION
            MAX_TIMER_DURATION
    ∧ Duration.clamp (Duration.from_secs seconds) MIN_TIMER_DURATION
        MAX_TIMER_DURATION ≤ MAX_TIMER_DURATION
    ∧ update_in_game ⟨d, pool, State.GettingSoundPermission⟩
        (InGameMsg.ChangeTimer 200) now
      = ⟨Duration.from_secs 60, pool, State.GettingSoundPermission⟩ := by
  obtain ⟨s, ss⟩ := c
  refine ⟨rfl, rfl, ?_, (clamp_mem_range seconds).1, (clamp_mem_range seconds).2, rfl⟩
  cases ss <;> rfl

/-- C9: `Finished` is terminal for gameplay: every in-game message other
than `GoHome` and every before-game message leaves a finished session
exactly as it is; only the `GoHome` (return-to-selection) event ends it,
back to the family-selection state. -/
theorem finished_is_terminal :
    (∀ (d now : Nat) (pool : List Sentence) (msg : InGameMsg),
      msg ≠ InGameMsg.GoHome →
      update_in_game ⟨d, pool, State.Finished⟩ msg now
        = ⟨d, pool, State.Finished⟩)
    ∧ (∀ (d : Nat) (pool : List Sentence) (msg : BeforeGameMsg)
        (shuffle : List Sentence → List Sentence),
      update_before_game ⟨d, pool, State.Finished⟩ msg shuffle
        = ⟨d, pool, State.Finished⟩)
    ∧ (∀ (d now : Nat) (pool : List Sentence),
      (update_in_game ⟨d, pool, State.Finished⟩ InGameMsg.GoHome now).state
        = State.SelectingFamilies []) := by
  refine ⟨?_, ?_, ?_⟩
  · intro d now pool msg h
    cases msg <;> first | rfl | exact absurd rfl h
  · intro d pool msg shuffle
    rfl
  · intro d now pool
    rfl

theorem finished_is_terminal_witness :
    update_in_game ⟨Duration.from_secs 20, [], State.Finished⟩
        InGameMsg.NextSentence 0
      = ⟨Duration.from_secs 20, [], State.Finished⟩ :=
  finished_is_terminal.1 (Duration.from_secs 20) 0 [] InGameMsg.NextSentence
    (by decide)

/-- C10: a freshly created session has a configured duration of 20 s, which
lies within the clamping bounds [3 s, 60 s], and processing any message
(before-game or in-game) preserves membership of the configured duration in
that range. -/
theorem duration_always_in_bounds :
    (Game.create.duration = Duration.from_secs 20
      ∧ MIN_TIMER_DURATION ≤ Game.create.duration
      ∧ Game.create.duration ≤ MAX_TIMER_DURATION)
    ∧ (∀ (g : Game) (msg : Msg) (now : Nat)
        (shuffle : List Sentence → List Sentence),
      MIN_TIMER_DURATION ≤ g.duration → g.duration ≤ MAX_TIMER_DURATION →
      MIN_TIMER_DURATION ≤ (Game.update g msg now shuffle).duration
        ∧ (Game.update g msg now shuffle).duration ≤ MAX_TIMER_DURATION) := by
  refine ⟨⟨rfl, by decide, by decide⟩, ?_⟩
  intro g msg now shuffle hlo hhi
  rcases msg with m | m
  · rw [Game.update, update_before_game_duration]
    exact ⟨hlo, hhi⟩
  · rw [Game.update]
    rcases update_in_game_duration g m now with h | ⟨s, h⟩
    · rw [h]; exact ⟨hlo, hhi⟩
    · rw [h]; exact clamp_mem_range s

theorem duration_always_in_bounds_witness :
    MIN_TIMER_DURATION
        ≤ (Game.update Game.create (Msg.InGame (InGameMsg.ChangeTimer 200)) 0 id).duration
    ∧ (Game.update Game.create (Msg.InGame (InGameMsg.ChangeTimer 200)) 0 id).duration
        ≤ MAX_TIMER_DURATION :=
  duration_always_in_bounds.2 Game.create (Msg.InGame (InGameMsg.ChangeTimer 200))
    0 id (by decide) (by decide)

end SevenFamilies
